import Mathlib

/-!
Shallow embedding of `src/ChainsimEditor.ts` from the puyosim-ts repository,
together with spec-modelled fragments of the `Field` engine (`Field.ts`,
`Puyo.ts` and `helper.ts` are imported by the editor but are not part of the
source tree; whenever a definition stands in for one of those modules its doc
comment says `Modelled from the spec:`).

Grids are column-major throughout, matching the source: an `x`-indexed list of
columns, each a `y`-indexed list of cells, with `cols = 6` and `rows = 13`
under the default simulator settings.
-/

namespace PuyoSim

/-! ## Garbage-tray icons (`calculateGarbageIcons`, ChainsimEditor.ts 2329-2411)

The source initialises a six-entry array of `"spacer_n"` strings and then runs
the mutually recursive denomination chain `checkCrown -> checkMoon ->
checkStar -> checkRock -> checkLine -> checkUnit`, each call placing at most
one icon at index `i` and recursing with `i + 1`.  The Lean versions are
indexed by the number `k = 6 - i` of remaining slots and return the list of
icons placed from position `i` on. -/

/-- Embedding of `checkUnit`: while at least 1 garbage point remains and a slot
is free, place a `"unit"` icon and continue with one fewer point. -/
def checkUnit : ℕ → ℕ → List String
  | _, 0 => []
  | g, k + 1 => if 1 ≤ g then "unit" :: checkUnit (g - 1) k else []

/-- Embedding of `checkLine`: place `"line"` icons worth 6 while possible, then
fall through to `checkUnit` at the same position. -/
def checkLine : ℕ → ℕ → List String
  | _, 0 => []
  | g, k + 1 => if 6 ≤ g then "line" :: checkLine (g - 6) k else checkUnit g (k + 1)

/-- Embedding of `checkRock`: place `"rock"` icons worth 30 while possible, then
fall through to `checkLine` at the same position. -/
def checkRock : ℕ → ℕ → List String
  | _, 0 => []
  | g, k + 1 => if 30 ≤ g then "rock" :: checkRock (g - 30) k else checkLine g (k + 1)

/-- Embedding of `checkStar`: place at most one `"star"` worth 180, then move on
to `checkRock`. -/
def checkStar : ℕ → ℕ → List String
  | _, 0 => []
  | g, k + 1 => if 180 ≤ g then "star" :: checkRock (g - 180) k else checkRock g (k + 1)

/-- Embedding of `checkMoon`: place at most one `"moon"` worth 360, then move on
to `checkStar`. -/
def checkMoon : ℕ → ℕ → List String
  | _, 0 => []
  | g, k + 1 => if 360 ≤ g then "moon" :: checkStar (g - 360) k else checkStar g (k + 1)

/-- Embedding of `checkCrown`: place `"crown"` icons worth 720 while possible,
then fall through to `checkMoon` at the same position. -/
def checkCrown : ℕ → ℕ → List String
  | _, 0 => []
  | g, k + 1 => if 720 ≤ g then "crown" :: checkCrown (g - 720) k else checkMoon g (k + 1)

/-- Embedding of `calculateGarbageIcons`: run the denomination chain on
`totalGarbage` over the six tray slots; untouched slots keep their initial
`"spacer_n"` entry. -/
def calculateGarbageIcons (totalGarbage : ℕ) : List String :=
  let placed := checkCrown totalGarbage 6
  placed ++ List.replicate (6 - placed.length) "spacer_n"

/-- Garbage denomination of each icon name: crown 720, moon 360, star 180,
rock 30, line 6, unit 1 and spacer 0. -/
def iconValue : String → ℕ
  | "crown" => 720
  | "moon" => 360
  | "star" => 180
  | "rock" => 30
  | "line" => 6
  | "unit" => 1
  | _ => 0

/-! ## Score display (`updateScoreDisplay`, ChainsimEditor.ts 2456-2469) -/

/-- Embedding of `updateScoreDisplay`: render `totalScore` in decimal, prepend
`8 - length` zero characters (none when the score is already 8 or more digits
long, mirroring the loop bound `missingDigits`), and show the first 8
characters on the 8 score sprites. -/
def updateScoreDisplay (totalScore : ℕ) : List Char :=
  let scoreText := (Nat.repr totalScore).toList
  let missingDigits := 8 - scoreText.length
  let padded := List.replicate missingDigits '0' ++ scoreText
  (List.range 8).map fun i => padded.getD i '0'

/-! ## Pop-resolution garbage animation (`animatePops`, ChainsimEditor.ts 2079-2104)

`Puyo.ts` is not under `src/`; following the piece-code alphabet of the spec
(`"J"` = Garbage, `"H"` = Hard) the `PuyoType` constants compared against
`matrix[x][y].p` are modelled as those one-character strings. -/

/-- Modelled from the spec: `PuyoType.Garbage` from the missing `Puyo.ts`, the
piece code `"J"`. -/
def PuyoType.Garbage : String := "J"

/-- Modelled from the spec: `PuyoType.Hard` from the missing `Puyo.ts`, the
piece code `"H"`. -/
def PuyoType.Hard : String := "H"

/-- Display state of one field sprite: its alpha and its current texture name. -/
structure CellSprite where
  alpha : ℚ
  texture : String
deriving DecidableEq

/-- Duration constant of the pop animation (`const duration: number = 40`). -/
def popDuration : ℚ := 40

/-- Embedding of the garbage fade-out block of `animatePops` (lines 2079-2104),
the per-cell effect applied during the burst part of the pop animation given
the cell entry of `garbageClearCountMatrix`, the piece code and the current
frame.  The two `if` statements of the count-1 branch are sequential in the
source and are translated sequentially. -/
def garbageFade (count : ℕ) (p : String) (frame : ℚ) (v : CellSprite) : CellSprite :=
  if count = 1 then
    let v1 := if p = PuyoType.Garbage then { v with alpha := 1 - frame / popDuration } else v
    if p = PuyoType.Hard then
      if frame ≤ popDuration * 0.8 then
        { v1 with alpha := 1 - frame / popDuration * 0.8 }
      else
        { v1 with texture := "garbage_n.png",
                  alpha := (frame - popDuration * 0.8) / (popDuration - popDuration * 0.8) }
    else v1
  else if 2 ≤ count then
    if p = PuyoType.Garbage ∨ p = PuyoType.Hard then
      { v with alpha := 1 - frame / popDuration }
    else v
  else v

/-! ## Target-layer interactivity (`toggleTargetLayer`, ChainsimEditor.ts 1181-1207) -/

/-- Interactivity flags of the four display sprites sharing one grid cell. -/
structure LayerInteractivity where
  puyo : Bool
  shadow : Bool
  arrow : Bool
  cursor : Bool
deriving DecidableEq

/-- Embedding of the loop body of `toggleTargetLayer`: the per-cell assignment
of the four `interactive` flags selected by `currentTool.targetLayer`. -/
def toggleTargetLayerCell (targetLayer : String) (v : LayerInteractivity) : LayerInteractivity :=
  if targetLayer = "main" then ⟨true, false, false, false⟩
  else if targetLayer = "shadow" then ⟨false, true, false, false⟩
  else if targetLayer = "arrow" then ⟨false, false, true, false⟩
  else if targetLayer = "cursor" then ⟨false, false, false, true⟩
  else v

/-- Embedding of `toggleTargetLayer`: the per-cell assignment applied to every
cell of the cols-by-rows display grid. -/
def toggleTargetLayer (targetLayer : String) (grid : List (List LayerInteractivity)) :
    List (List LayerInteractivity) :=
  grid.map fun col => col.map (toggleTargetLayerCell targetLayer)

/-- Interactivity flag of the display layer named by `targetLayer` at one cell
(used to state which of the four sprites ends up interactive). -/
def layerFlag (targetLayer : String) (v : LayerInteractivity) : Bool :=
  if targetLayer = "main" then v.puyo
  else if targetLayer = "shadow" then v.shadow
  else if targetLayer = "arrow" then v.arrow
  else if targetLayer = "cursor" then v.cursor
  else false

/-- Number of interactive layers at one cell. -/
def interactiveCount (v : LayerInteractivity) : ℕ :=
  v.puyo.toNat + v.shadow.toNat + v.arrow.toNat + v.cursor.toNat

/-! ## Drop animation (`animateFieldDrops`, ChainsimEditor.ts 1919-2014)

The `simState === "checkingDrops"` branch runs `Math.round(speed)` iterations;
in each iteration every cell is visited in order, its `dropDistances` entry is
observed (setting `stillDropping` when positive) and its animation state is
advanced.  `gameField.advanceState()` is invoked at the end of the frame
exactly when `stillDropping` remained `false` (lines 1986-1989).  The gravity
increment uses `const t = this.frame`, captured once at frame entry, so the
per-cell update does not change across iterations. -/

/-- Cell height from `gameSettings` (`cellHeight: 60`). -/
def cellHeight : ℚ := 60

/-- Per-cell animation state read and written by `animateFieldDrops`: the
cell's `dropDistances` entry, its `puyoStates` string, `puyoDropSpeed`,
`puyoBounceFrames`, the sprite's `y`, scale and y-anchor, whether the piece is
colored (`matrix[x][y].isColored`) and the cell's resting `coordArray` y. -/
structure CellAnim where
  dropDistance : ℕ
  animState : String
  dropSpeed : ℚ
  bounceFrames : ℕ
  y : ℚ
  scaleX : ℚ
  scaleY : ℚ
  anchorY : ℚ
  isColored : Bool
  baseY : ℚ
deriving DecidableEq

/-- Embedding of the per-cell body of the `checkingDrops` loop of
`animateFieldDrops` (without the `stillDropping` observation, threaded
separately): idle cells with positive distance start dropping, dropping cells
accelerate under gravity until reaching their destination row, bouncing cells
squash for 16 frames and finally come to rest, zeroing their
`dropDistances` entry. -/
def animCellStep (t : ℕ) (c : CellAnim) : CellAnim :=
  let c1 :=
    if 0 < c.dropDistance ∧ c.animState = "idle" then { c with animState := "dropping" } else c
  let c2 :=
    if c1.animState = "dropping" then
      if c1.y + c1.dropSpeed < c1.baseY + (c1.dropDistance : ℚ) * cellHeight then
        { c1 with y := c1.y + c1.dropSpeed,
                  dropSpeed := c1.dropSpeed + 0.1875 / 16 * 30 * (t : ℚ) }
      else
        { c1 with animState := "bouncing",
                  y := c1.baseY + (c1.dropDistance : ℚ) * cellHeight + cellHeight / 2,
                  anchorY := if c1.isColored then 1 else c1.anchorY }
    else c1
  if c2.animState = "bouncing" then
    let c3 := { c2 with bounceFrames := c2.bounceFrames + 1 }
    if c3.bounceFrames < 8 ∧ c3.isColored then
      { c3 with scaleY := c3.scaleY - 0.2 / 8, scaleX := c3.scaleX + 0.2 / 8 }
    else if c3.bounceFrames < 16 ∧ c3.isColored then
      { c3 with scaleY := c3.scaleY + 0.2 / 8, scaleX := c3.scaleX - 0.2 / 8 }
    else
      { c3 with anchorY := 0.5,
                y := c3.baseY + (c3.dropDistance : ℚ) * cellHeight,
                animState := "idle", dropDistance := 0,
                bounceFrames := 0, dropSpeed := 0 }
  else c2

/-- One pass of the inner cell loop: each cell first contributes its
`dropDistances > 0` observation to the `stillDropping` flag and is then
updated by `animCellStep`, in source order. -/
def stepCellsObserve (t : ℕ) : List CellAnim → Bool → List CellAnim × Bool
  | [], sd => ([], sd)
  | c :: cs, sd =>
      let sd1 := sd || decide (0 < c.dropDistance)
      let r := stepCellsObserve t cs sd1
      (animCellStep t c :: r.1, r.2)

/-- Embedding of the `for (let i = 0; i < Math.round(speed); i++)` loop of the
`checkingDrops` branch, threading the cell grid and the `stillDropping`
flag. -/
def runDropFrame (t : ℕ) : ℕ → List CellAnim → Bool → List CellAnim × Bool
  | 0, cells, sd => (cells, sd)
  | n + 1, cells, sd =>
      let st := stepCellsObserve t cells sd
      runDropFrame t n st.1 st.2

/-- The frame calls `gameField.advanceState()` (lines 1986-1989) exactly when
`stillDropping` remained `false` over all `n` iterations. -/
def advanceInvoked (t n : ℕ) (cells : List CellAnim) : Bool :=
  !(runDropFrame t n cells false).2

/-! ## Field model shared by the reset and edit handlers

`Field.ts` is not under `src/`; its fields and the methods used by
`resetFieldAndState` and the cell-edit handlers are modelled from the spec
(sections 3, 4.1 and 6). -/

/-- One cell of the live `Field.matrix`: a piece code and its own grid
coordinates, as assigned by the edit handlers (`matrix[x][y].p/x/y`). -/
structure PuyoCell where
  p : String
  x : ℕ
  y : ℕ
deriving DecidableEq

/-- Colored piece codes; per the spec only colors form connections
(`R G B Y P`, the color letters of the piece-code alphabet). -/
def isColoredPiece (p : String) : Bool :=
  p = "R" || p = "G" || p = "B" || p = "Y" || p = "P"

/-- Piece code of a column-major grid at `(x, y)`, `"0"` (None) out of
bounds. -/
def pieceAt (m : List (List String)) (x y : ℕ) : String :=
  (m.getD x []).getD y "0"

/-- Connection bits of one cell over its four orthogonal neighbors. -/
structure ConnMask where
  up : Bool
  right : Bool
  down : Bool
  left : Bool
deriving DecidableEq

/-- Whether the cells at `(x, y)` and `(x2, y2)` connect: both in the same
nonempty color class, i.e. the cell is colored and the neighbor carries the
same code.  Out-of-bounds neighbors read as `"0"` and never connect. -/
def connectsTo (m : List (List String)) (x y x2 y2 : ℕ) : Bool :=
  isColoredPiece (pieceAt m x y) && (pieceAt m x y = pieceAt m x2 y2)

/-- Modelled from the spec: the connection mask of one cell, section 4.1 —
compare the cell's color against its four orthogonal neighbors, out-of-bounds
means no connection (the upward comparison is guarded by `0 < y`, the leftward
one by `0 < x`). -/
def connMaskAt (m : List (List String)) (x y : ℕ) : ConnMask :=
  ⟨decide (0 < y) && connectsTo m x y x (y - 1),
   connectsTo m x y (x + 1) y,
   connectsTo m x y x (y + 1),
   decide (0 < x) && connectsTo m x y (x - 1) y⟩

/-- All connection masks of a grid, computed column by column. -/
def computeConnections (m : List (List String)) : List (List ConnMask) :=
  m.mapIdx fun x col => col.mapIdx fun y _ => connMaskAt m x y

/-- Piece codes of a live cell matrix. -/
def matrixPieces (m : List (List PuyoCell)) : List (List String) :=
  m.map fun col => col.map fun c => c.p

/-- Modelled from the spec: the engine state of the missing `Field.ts` — the
stored input matrix, the live cell matrix, the phase name `simState`, the
chain-record fields of section 3, the `hasPops`/`hasDrops` flags, the chain
history and the derived connection masks. -/
structure FieldModel where
  inputMatrix : List (List String)
  matrix : List (List PuyoCell)
  simState : String
  chainLength : ℕ
  linkScore : ℕ
  totalScore : ℕ
  linkBonusMultiplier : ℕ
  linkPuyoMultiplier : ℕ
  leftoverNuisancePoints : ℚ
  totalGarbage : ℕ
  linkGarbage : ℕ
  hasPops : Bool
  hasDrops : Bool
  chainHistory : List (List (List String))
  connections : List (List ConnMask)
deriving DecidableEq

/-- Cells of one column annotated with their own coordinates, starting at row
`y`. -/
def coordColumnAux (x : ℕ) : ℕ → List String → List PuyoCell
  | _, [] => []
  | y, p :: ps => ⟨p, x, y⟩ :: coordColumnAux x (y + 1) ps

/-- Columns annotated with their own coordinates, starting at column `x`. -/
def coordCellsAux : ℕ → List (List String) → List (List PuyoCell)
  | _, [] => []
  | x, col :: cs => coordColumnAux x 0 col :: coordCellsAux (x + 1) cs

/-- A live cell matrix built from a matrix of piece codes, every cell holding
its own coordinates. -/
def coordCells (m : List (List String)) : List (List PuyoCell) :=
  coordCellsAux 0 m

/-- Rewrite of the coordinates of one column of live cells, starting at row
`y`. -/
def recoordColumnAux (x : ℕ) : ℕ → List PuyoCell → List PuyoCell
  | _, [] => []
  | y, c :: cs => { c with x := x, y := y } :: recoordColumnAux x (y + 1) cs

/-- Rewrite of the coordinates of all live cells, starting at column `x`. -/
def recoordCellsAux : ℕ → List (List PuyoCell) → List (List PuyoCell)
  | _, [] => []
  | x, col :: cs => recoordColumnAux x 0 col :: recoordCellsAux (x + 1) cs

/-- Modelled from the spec: `updateFieldMatrix(matrix)` of the missing
`Field.ts`, section 6 — "replaces the live grid from a stored input matrix". -/
def updateFieldMatrix (f : FieldModel) (m : List (List String)) : FieldModel :=
  { f with matrix := coordCells m }

/-- Modelled from the spec: `refreshLinkData()` of the missing `Field.ts`,
section 6 — recomputes the chain record, i.e. "chain record reset". -/
def refreshLinkData (f : FieldModel) : FieldModel :=
  { f with chainLength := 0, linkScore := 0, totalScore := 0, linkBonusMultiplier := 0,
           linkPuyoMultiplier := 0, leftoverNuisancePoints := 0, totalGarbage := 0,
           linkGarbage := 0 }

/-- Modelled from the spec: `refreshPuyoPositionData()` of the missing
`Field.ts`, section 6 — recomputes the per-cell coordinates. -/
def refreshPuyoPositionData (f : FieldModel) : FieldModel :=
  { f with matrix := recoordCellsAux 0 f.matrix }

/-- Modelled from the spec: `setConnectionData()` of the missing `Field.ts`,
sections 4.1 and 6 — recomputes every cell's connection mask from the current
piece types. -/
def setConnectionData (f : FieldModel) : FieldModel :=
  { f with connections := computeConnections (matrixPieces f.matrix) }

/-- Editor state touched by `resetFieldAndState` and the cell-edit pointer
handlers: the engine, the editor flags and the current tool.  `editorState`
names the function currently held by `this.state` (the handlers compare it
against `this.idleState`). -/
structure EditorModel where
  gameField : FieldModel
  autoAdvance : Bool
  simulationSpeed : ℚ
  frame : ℕ
  editorState : String
  simulatorMode : String
  targetLayer : String
  toolPuyo : String
  leftButtonDown : Bool
  rightButtonDown : Bool
deriving DecidableEq

/-- Embedding of `resetFieldAndState` (ChainsimEditor.ts 1837-1866): stop
auto-advance, zero the chain record and the pop/drop flags, reload the live
grid from `inputMatrix` via `updateFieldMatrix`, refresh the derived data, set
`simState` to `"idle"`, refresh the sprites (`refreshPuyoSprites` begins with
`setConnectionData`) and return the editor to its idle handler. -/
def resetFieldAndState (e : EditorModel) : EditorModel :=
  let f0 := e.gameField
  let f1 := { f0 with chainLength := 0, linkScore := 0, totalScore := 0,
                      linkBonusMultiplier := 0, linkPuyoMultiplier := 0,
                      leftoverNuisancePoints := 0, totalGarbage := 0, linkGarbage := 0,
                      hasPops := false, hasDrops := false, chainHistory := [] }
  let f2 := updateFieldMatrix f1 f1.inputMatrix
  let f3 := refreshLinkData f2
  let f4 := refreshPuyoPositionData f3
  let f5 := setConnectionData f4
  let f6 := { f5 with simState := "idle" }
  { e with autoAdvance := false, simulationSpeed := 1, frame := 0,
           gameField := setConnectionData f6, editorState := "idleState" }

/-! ## Cell-edit pointer handlers (`initPuyoDisplay`, ChainsimEditor.ts 579-636)

Each handler is guarded by `currentTool.targetLayer === "main" && this.state
=== this.idleState && this.simulatorMode === "edit"`; when the guard passes it
writes `gameField.inputMatrix[x][y]` and `gameField.matrix[x][y]` and calls
`refreshPuyoSprites()` (which begins with `gameField.setConnectionData()`).
No handler contains a `throw`, so each is embedded as an `Except`-valued
function all of whose paths return `Except.ok`. -/

/-- Write one piece code of a column-major grid. -/
def setGrid (m : List (List String)) (x y : ℕ) (v : String) : List (List String) :=
  m.set x ((m.getD x []).set y v)

/-- Write one live cell (`matrix[x][y].p = v; matrix[x][y].x = x;
matrix[x][y].y = y`). -/
def setCell (m : List (List PuyoCell)) (x y : ℕ) (v : String) : List (List PuyoCell) :=
  m.set x ((m.getD x []).set y ⟨v, x, y⟩)

/-- Shared mutation of the handlers: write `v` into both matrices at `(x, y)`
and re-run `refreshPuyoSprites`, whose first statement is
`gameField.setConnectionData()`. -/
def applyCellEdit (x y : ℕ) (v : String) (e : EditorModel) : EditorModel :=
  let f := { e.gameField with inputMatrix := setGrid e.gameField.inputMatrix x y v,
                              matrix := setCell e.gameField.matrix x y v }
  { e with gameField := setConnectionData f }

/-- Embedding of the `pointerdown` handler of `puyoDisplay[x][y]` (left click:
place `currentTool.puyo`).  When the guard fails the handler returns without
touching anything; it never raises an error. -/
def puyoPointerdown (x y : ℕ) (e : EditorModel) : Except String EditorModel :=
  if e.targetLayer = "main" ∧ e.editorState = "idleState" ∧ e.simulatorMode = "edit" then
    if e.toolPuyo ≠ "" then
      Except.ok (applyCellEdit x y e.toolPuyo e)
    else
      Except.ok { e with gameField := setConnectionData e.gameField }
  else Except.ok e

/-- Embedding of the `rightdown` handler of `puyoDisplay[x][y]` (right click:
erase to `"0"`). -/
def puyoRightdown (x y : ℕ) (e : EditorModel) : Except String EditorModel :=
  if e.targetLayer = "main" ∧ e.editorState = "idleState" ∧ e.simulatorMode = "edit" then
    Except.ok (applyCellEdit x y "0" e)
  else Except.ok e

/-- Embedding of the `pointerover` handler of `puyoDisplay[x][y]` (drag-paint
with the left button, drag-erase with the right button). -/
def puyoPointerover (x y : ℕ) (e : EditorModel) : Except String EditorModel :=
  if e.targetLayer = "main" ∧ e.editorState = "idleState" ∧ e.leftButtonDown = true ∧
      e.rightButtonDown = false ∧ e.toolPuyo ≠ "" ∧ e.simulatorMode = "edit" then
    Except.ok (applyCellEdit x y e.toolPuyo e)
  else if e.targetLayer = "main" ∧ e.editorState = "idleState" ∧ e.rightButtonDown = true ∧
      e.simulatorMode = "edit" then
    Except.ok (applyCellEdit x y "0" e)
  else Except.ok e

/-! ## Field serialization (`generateCurrentFieldJSON` 2564-2585,
`generateCompressedFields` 2587-2607, `decompressChainURL` 2609-2613,
`loadFromURL` 376-417)

`flatten2DStringArray` and `convertStringTo2DArray` live in the missing
`helper.ts` and are modelled from the spec (section 6: "a full field
serializes as a flattened string of cols×rows characters in column-major or
row-major order consistent with the deserializer (must be symmetric for
round-trip)"); the flattening is column-major, matching the explicit shadow
loop of `generateCurrentFieldJSON`.  The lz-string codec is an external
library (URL compression is outside the engine per the spec) and is modelled
as the identity coding pair on the decoded game JSON. -/

/-- Modelled from the spec: `flatten2DStringArray` of the missing `helper.ts` —
concatenate the columns of a column-major field into one flattened string. -/
def flatten2DStringArray (m : List (List Char)) : List Char :=
  m.flatten

/-- Modelled from the spec: `convertStringTo2DArray` of the missing
`helper.ts` — split a flattened string back into `cols` columns of `rows`
characters, the inverse of the column-major flattening. -/
def convertStringTo2DArray : List Char → ℕ → ℕ → List (List Char)
  | _, 0, _ => []
  | s, c + 1, r => s.take r :: convertStringTo2DArray (s.drop r) c r

/-- The four layer strings of one slide of the shared JSON
(`generateCurrentFieldJSON`). -/
structure FieldJSON where
  puyo : List Char
  shadow : List Char
  arrow : List Char
  cursor : List Char
deriving DecidableEq

/-- The decoded game JSON wrapped around the slides by
`generateCompressedFields`. -/
structure GameJSON where
  slide : List FieldJSON
deriving DecidableEq

/-- Embedding of `generateCurrentFieldJSON`: flatten the main, shadow, arrow
and cursor layers into the four slide strings (the shadow layer is flattened
by an explicit column-major loop in the source, the others through
`flatten2DStringArray`). -/
def generateCurrentFieldJSON (puyoF shadowF arrowF cursorF : List (List Char)) : FieldJSON :=
  ⟨flatten2DStringArray puyoF, flatten2DStringArray shadowF,
   flatten2DStringArray arrowF, flatten2DStringArray cursorF⟩

/-- Modelled from the spec: `compressToEncodedURIComponent` of the external
lz-string library, elided to the identity on the decoded game JSON (the codec
is an exact inverse pair and outside the repository). -/
def compressToEncodedURIComponent (g : GameJSON) : GameJSON := g

/-- Modelled from the spec: `decompressFromEncodedURIComponent` of the
external lz-string library, the inverse of the compression. -/
def decompressFromEncodedURIComponent (g : GameJSON) : GameJSON := g

/-- Embedding of `generateCompressedFields`: wrap the current field JSON in a
single-slide game JSON and compress it. -/
def generateCompressedFields (puyoF shadowF arrowF cursorF : List (List Char)) : GameJSON :=
  compressToEncodedURIComponent ⟨[generateCurrentFieldJSON puyoF shadowF arrowF cursorF]⟩

/-- Embedding of `decompressChainURL`: decompress the shared string back into
the game JSON. -/
def decompressChainURL (s : GameJSON) : GameJSON :=
  decompressFromEncodedURIComponent s

/-- Embedding of the layer decoding of `loadFromURL`: decompress, take
`slide[0]` and convert each layer string back into a cols-by-rows grid. -/
def loadFromURLLayers (s : GameJSON) (cols rows : ℕ) :
    List (List Char) × List (List Char) × List (List Char) × List (List Char) :=
  let j := (decompressChainURL s).slide.getD 0 ⟨[], [], [], []⟩
  (convertStringTo2DArray j.puyo cols rows, convertStringTo2DArray j.shadow cols rows,
   convertStringTo2DArray j.arrow cols rows, convertStringTo2DArray j.cursor cols rows)

/-- A column-major field with `cols` columns of `rows` cells each. -/
def WellformedGrid (m : List (List Char)) (cols rows : ℕ) : Prop :=
  m.length = cols ∧ ∀ col ∈ m, col.length = rows

/-! ## Pop detection (`checkingPops` phase, spec section 4.3)

The flood fill and the pop-eligibility decision live in the missing
`Field.ts` and are modelled from the spec: color cells are partitioned into
maximal 4-connected same-color groups and a group pops iff its size is at
least `puyoToPop`. -/

/-- Boolean 4-adjacency of two grid coordinates. -/
def adjB (a b : ℕ × ℕ) : Bool :=
  (a.1 = b.1 && (a.2 + 1 = b.2 || b.2 + 1 = a.2)) ||
  (a.2 = b.2 && (a.1 + 1 = b.1 || b.1 + 1 = a.1))

/-- The at most four orthogonal neighbors of a coordinate. -/
def neighborsList (a : ℕ × ℕ) : List (ℕ × ℕ) :=
  [(a.1 + 1, a.2), (a.1, a.2 + 1)] ++
  (if 0 < a.1 then [(a.1 - 1, a.2)] else []) ++
  (if 0 < a.2 then [(a.1, a.2 - 1)] else [])

/-- One flood-fill expansion step restricted to the cell set `G`: add every
cell of `G` adjacent to the current frontier. -/
def expandWithin (G S : Finset (ℕ × ℕ)) : Finset (ℕ × ℕ) :=
  S ∪ G.filter fun b => (S.filter fun a => adjB a b).Nonempty

/-- Cells of `G` reachable from `a` through 4-adjacency inside `G`, computed
by `G.card` expansion steps. -/
def reachableWithin (G : Finset (ℕ × ℕ)) (a : ℕ × ℕ) : Finset (ℕ × ℕ) :=
  (expandWithin G)^[G.card] {a}

/-- Modelled from the spec: a Group of section 3 — a nonempty set of
same-colored color cells, 4-connected inside itself and maximal (no adjacent
cell of the same color lies outside it). -/
def IsGroup (m : List (List String)) (G : Finset (ℕ × ℕ)) : Prop :=
  G.Nonempty ∧
  (∀ c ∈ G, isColoredPiece (pieceAt m c.1 c.2) = true) ∧
  (∀ a ∈ G, ∀ b ∈ G, pieceAt m a.1 a.2 = pieceAt m b.1 b.2) ∧
  (∀ a ∈ G, ∀ b ∈ G, b ∈ reachableWithin G a) ∧
  (∀ a ∈ G, ∀ b ∈ neighborsList a, pieceAt m b.1 b.2 = pieceAt m a.1 a.2 → b ∈ G)

/-- Modelled from the spec: the pop-eligibility decision of the
`checkingPops` phase, section 4.3 item 2 — a group is popping iff its size is
at least `puyoToPop`. -/
def groupPops (puyoToPop : ℕ) (G : Finset (ℕ × ℕ)) : Bool :=
  decide (puyoToPop ≤ G.card)

/-- Invariant of one stage of the garbage-icon denomination chain: starting
with `g` garbage points and `k` free slots the stage fills at most `k` slots,
never places more value than `g`, places exactly `g` whenever a slot is left
over, draws its icons from `allowed`, and produces icons of non-increasing
value, all of value at most `value`. -/
def IconChainInv (value : ℕ) (allowed : List String) (g k : ℕ) (l : List String) : Prop :=
  l.length ≤ k ∧
  (l.map iconValue).sum ≤ g ∧
  (l.length < k → (l.map iconValue).sum = g) ∧
  (∀ s ∈ l, s ∈ allowed) ∧
  List.Sorted (· ≥ ·) (l.map iconValue) ∧
  (∀ v ∈ l.map iconValue, v ≤ value)

theorem iconValue_crown : iconValue "crown" = 720 := rfl

theorem iconValue_moon : iconValue "moon" = 360 := rfl

theorem iconValue_star : iconValue "star" = 180 := rfl

theorem iconValue_rock : iconValue "rock" = 30 := rfl

theorem iconValue_line : iconValue "line" = 6 := rfl

theorem iconValue_unit : iconValue "unit" = 1 := rfl

theorem iconValue_spacer : iconValue "spacer_n" = 0 := rfl

theorem IconChainInv.weaken {v1 g k : ℕ} {a1 : List String} {l : List String}
    (h : IconChainInv v1 a1 g k l) {v2 : ℕ} {a2 : List String}
    (hv : v1 ≤ v2) (ha : ∀ s ∈ a1, s ∈ a2) : IconChainInv v2 a2 g k l := by
  obtain ⟨h1, h2, h3, h4, h5, h6⟩ := h
  exact ⟨h1, h2, h3, fun s hs => ha s (h4 s hs), h5, fun v hv2 => le_trans (h6 v hv2) hv⟩

theorem iconChainInv_cons {vtail value g k : ℕ} {icon : String} {allowed : List String}
    {l : List String} (hicon : icon ∈ allowed) (hv : iconValue icon = value)
    (hg : value ≤ g) (htail : vtail ≤ value)
    (h : IconChainInv vtail allowed (g - value) k l) :
    IconChainInv value allowed g (k + 1) (icon :: l) := by
  obtain ⟨h1, h2, h3, h4, h5, h6⟩ := h
  refine ⟨?_, ?_, ?_, ?_, ?_, ?_⟩
  · simp only [List.length_cons]
    omega
  · simp only [List.map_cons, List.sum_cons, hv]
    omega
  · intro hlen
    simp only [List.length_cons] at hlen
    have := h3 (by omega)
    simp only [List.map_cons, List.sum_cons, hv]
    omega
  · intro s hs
    rcases List.mem_cons.mp hs with rfl | hs
    · exact hicon
    · exact h4 s hs
  · simp only [List.map_cons]
    exact List.sorted_cons.mpr ⟨fun b hb => hv ▸ le_trans (le_trans (h6 b hb) htail) le_rfl, h5⟩
  · intro v hvm
    simp only [List.map_cons, hv] at hvm
    rcases List.mem_cons.mp hvm with rfl | hvm
    · exact le_rfl
    · exact le_trans (h6 v hvm) htail

theorem checkUnit_inv (g k : ℕ) : IconChainInv 1 ["unit"] g k (checkUnit g k) := by
  induction k generalizing g with
  | zero => simp [checkUnit, IconChainInv]
  | succ k ih =>
      by_cases hg : 1 ≤ g
      · have heq : checkUnit g (k + 1) = "unit" :: checkUnit (g - 1) k := by
          simp [checkUnit, hg]
        rw [heq]
        exact iconChainInv_cons (by simp) iconValue_unit hg le_rfl (ih (g - 1))
      · have hg0 : g = 0 := by omega
        subst hg0
        simp [checkUnit, IconChainInv]

theorem checkLine_inv (g k : ℕ) : IconChainInv 6 ["line", "unit"] g k (checkLine g k) := by
  induction k generalizing g with
  | zero => simp [checkLine, IconChainInv]
  | succ k ih =>
      by_cases hg : 6 ≤ g
      · have heq : checkLine g (k + 1) = "line" :: checkLine (g - 6) k := by
          simp [checkLine, hg]
        rw [heq]
        exact iconChainInv_cons (by simp) iconValue_line hg le_rfl (ih (g - 6))
      · have heq : checkLine g (k + 1) = checkUnit g (k + 1) := by
          simp [checkLine, hg]
        rw [heq]
        exact (checkUnit_inv g (k + 1)).weaken (by norm_num) (by intro s hs; fin_cases hs <;> simp)

theorem checkRock_inv (g k : ℕ) : IconChainInv 30 ["rock", "line", "unit"] g k (checkRock g k) := by
  induction k generalizing g with
  | zero => simp [checkRock, IconChainInv]
  | succ k ih =>
      by_cases hg : 30 ≤ g
      · have heq : checkRock g (k + 1) = "rock" :: checkRock (g - 30) k := by
          simp [checkRock, hg]
        rw [heq]
        exact iconChainInv_cons (by simp) iconValue_rock hg le_rfl (ih (g - 30))
      · have heq : checkRock g (k + 1) = checkLine g (k + 1) := by
          simp [checkRock, hg]
        rw [heq]
        exact (checkLine_inv g (k + 1)).weaken (by norm_num) (by intro s hs; fin_cases hs <;> simp)

theorem checkStar_inv (g k : ℕ) :
    IconChainInv 180 ["star", "rock", "line", "unit"] g k (checkStar g k) := by
  cases k with
  | zero => simp [checkStar, IconChainInv]
  | succ k =>
      by_cases hg : 180 ≤ g
      · have heq : checkStar g (k + 1) = "star" :: checkRock (g - 180) k := by
          simp [checkStar, hg]
        rw [heq]
        refine iconChainInv_cons (by simp) iconValue_star hg le_rfl ?_
        exact (checkRock_inv (g - 180) k).weaken (by norm_num)
          (by intro s hs; fin_cases hs <;> simp)
      · have heq : checkStar g (k + 1) = checkRock g (k + 1) := by
          simp [checkStar, hg]
        rw [heq]
        exact (checkRock_inv g (k + 1)).weaken (by norm_num) (by intro s hs; fin_cases hs <;> simp)

theorem checkMoon_inv (g k : ℕ) :
    IconChainInv 360 ["moon", "star", "rock", "line", "unit"] g k (checkMoon g k) := by
  cases k with
  | zero => simp [checkMoon, IconChainInv]
  | succ k =>
      by_cases hg : 360 ≤ g
      · have heq : checkMoon g (k + 1) = "moon" :: checkStar (g - 360) k := by
          simp [checkMoon, hg]
        rw [heq]
        refine iconChainInv_cons (by simp) iconValue_moon hg le_rfl ?_
        exact (checkStar_inv (g - 360) k).weaken (by norm_num)
          (by intro s hs; fin_cases hs <;> simp)
      · have heq : checkMoon g (k + 1) = checkStar g (k + 1) := by
          simp [checkMoon, hg]
        rw [heq]
        exact (checkStar_inv g (k + 1)).weaken (by norm_num) (by intro s hs; fin_cases hs <;> simp)

theorem checkCrown_inv (g k : ℕ) :
    IconChainInv 720 ["crown", "moon", "star", "rock", "line", "unit"] g k (checkCrown g k) := by
  induction k generalizing g with
  | zero => simp [checkCrown, IconChainInv]
  | succ k ih =>
      by_cases hg : 720 ≤ g
      · have heq : checkCrown g (k + 1) = "crown" :: checkCrown (g - 720) k := by
          simp [checkCrown, hg]
        rw [heq]
        exact iconChainInv_cons (by simp) iconValue_crown hg le_rfl (ih (g - 720))
      · have heq : checkCrown g (k + 1) = checkMoon g (k + 1) := by
          simp [checkCrown, hg]
        rw [heq]
        exact (checkMoon_inv g (k + 1)).weaken (by norm_num) (by intro s hs; fin_cases hs <;> simp)

theorem count_moon_checkStar (g k : ℕ) : (checkStar g k).count "moon" = 0 := by
  rw [List.count_eq_zero]
  intro h
  have := (checkStar_inv g k).2.2.2.1 _ h
  simp at this

theorem count_star_checkRock (g k : ℕ) : (checkRock g k).count "star" = 0 := by
  rw [List.count_eq_zero]
  intro h
  have := (checkRock_inv g k).2.2.2.1 _ h
  simp at this

theorem count_star_checkStar (g k : ℕ) : (checkStar g k).count "star" ≤ 1 := by
  cases k with
  | zero => simp [checkStar]
  | succ k =>
      by_cases hg : 180 ≤ g
      · simp [checkStar, hg, List.count_cons, count_star_checkRock]
      · simp [checkStar, hg, count_star_checkRock]

theorem count_moon_checkMoon (g k : ℕ) : (checkMoon g k).count "moon" ≤ 1 := by
  cases k with
  | zero => simp [checkMoon]
  | succ k =>
      by_cases hg : 360 ≤ g
      · simp [checkMoon, hg, List.count_cons, count_moon_checkStar]
      · simp [checkMoon, hg, count_moon_checkStar]

theorem count_star_checkMoon (g k : ℕ) : (checkMoon g k).count "star" ≤ 1 := by
  cases k with
  | zero => simp [checkMoon]
  | succ k =>
      by_cases hg : 360 ≤ g
      · simpa [checkMoon, hg, List.count_cons] using count_star_checkStar (g - 360) k
      · simpa [checkMoon, hg] using count_star_checkStar g (k + 1)

theorem count_moon_checkCrown (g k : ℕ) : (checkCrown g k).count "moon" ≤ 1 := by
  induction k generalizing g with
  | zero => simp [checkCrown]
  | succ k ih =>
      by_cases hg : 720 ≤ g
      · simpa [checkCrown, hg, List.count_cons] using ih (g - 720)
      · simpa [checkCrown, hg] using count_moon_checkMoon g (k + 1)

theorem count_star_checkCrown (g k : ℕ) : (checkCrown g k).count "star" ≤ 1 := by
  induction k generalizing g with
  | zero => simp [checkCrown]
  | succ k ih =>
      by_cases hg : 720 ≤ g
      · simpa [checkCrown, hg, List.count_cons] using ih (g - 720)
      · simpa [checkCrown, hg] using count_star_checkMoon g (k + 1)

theorem sorted_ge_replicate_zero (n : ℕ) : List.Sorted (· ≥ ·) (List.replicate n (0 : ℕ)) := by
  induction n with
  | zero => simp
  | succ n ih =>
      rw [List.replicate_succ]
      exact List.sorted_cons.mpr ⟨fun b hb => by rw [List.eq_of_mem_replicate hb], ih⟩

theorem spacer_not_mem_checkCrown (g k : ℕ) : "spacer_n" ∉ checkCrown g k := by
  intro h
  have := (checkCrown_inv g k).2.2.2.1 _ h
  simp at this

/-- C8: for every non-negative integer `totalGarbage`, `calculateGarbageIcons`
returns exactly 6 icon names whose denominations (crown 720, moon 360,
star 180, rock 30, line 6, unit 1, spacer 0) appear in non-increasing order,
contain at most one moon and at most one star, and sum to at most
`totalGarbage`; whenever a spacer entry remains in the result the
denominations sum to exactly `totalGarbage`. -/
theorem calculateGarbageIcons_spec (g : ℕ) :
    (calculateGarbageIcons g).length = 6 ∧
    List.Sorted (· ≥ ·) ((calculateGarbageIcons g).map iconValue) ∧
    (calculateGarbageIcons g).count "moon" ≤ 1 ∧
    (calculateGarbageIcons g).count "star" ≤ 1 ∧
    ((calculateGarbageIcons g).map iconValue).sum ≤ g ∧
    ("spacer_n" ∈ calculateGarbageIcons g →
      ((calculateGarbageIcons g).map iconValue).sum = g) := by
  obtain ⟨h1, h2, h3, h4, h5, h6⟩ := checkCrown_inv g 6
  have hmap : (calculateGarbageIcons g).map iconValue =
      (checkCrown g 6).map iconValue ++
        List.replicate (6 - (checkCrown g 6).length) 0 := by
    simp [calculateGarbageIcons, List.map_replicate, iconValue_spacer]
  refine ⟨?_, ?_, ?_, ?_, ?_, ?_⟩
  · simp only [calculateGarbageIcons, List.length_append, List.length_replicate]
    omega
  · rw [hmap]
    refine List.pairwise_append.mpr ⟨h5, sorted_ge_replicate_zero _, ?_⟩
    intro a ha b hb
    rw [List.eq_of_mem_replicate hb]
    exact Nat.zero_le a
  · simp only [calculateGarbageIcons, List.count_append]
    have h0 : (List.replicate (6 - (checkCrown g 6).length) "spacer_n").count "moon" = 0 := by
      simp [List.count_replicate]
    have hm := count_moon_checkCrown g 6
    omega
  · simp only [calculateGarbageIcons, List.count_append]
    have h0 : (List.replicate (6 - (checkCrown g 6).length) "spacer_n").count "star" = 0 := by
      simp [List.count_replicate]
    have hm := count_star_checkCrown g 6
    omega
  · rw [hmap]
    simpa using h2
  · intro hsp
    rw [hmap]
    simp only [calculateGarbageIcons, List.mem_append] at hsp
    rcases hsp with hsp | hsp
    · exact absurd hsp (spacer_not_mem_checkCrown g 6)
    · have hlt : (checkCrown g 6).length < 6 := by
        by_contra hge
        have : 6 - (checkCrown g 6).length = 0 := by omega
        rw [this] at hsp
        simp at hsp
      simpa using h3 hlt

theorem calculateGarbageIcons_spec_witness :
    "spacer_n" ∈ calculateGarbageIcons 3 ∧
      ((calculateGarbageIcons 3).map iconValue).sum = 3 :=
  ⟨by decide, (calculateGarbageIcons_spec 3).2.2.2.2.2 (by decide)⟩

theorem getD_range_map_take {α : Type} (d : α) :
    ∀ (n : ℕ) (l : List α), n ≤ l.length →
      (List.range n).map (fun i => l.getD i d) = l.take n := by
  intro n
  induction n with
  | zero => simp
  | succ n ih =>
      intro l hl
      cases l with
      | nil => simp at hl
      | cons a t =>
          rw [List.range_succ_eq_map, List.map_cons, List.map_map]
          have hcomp : ((fun i => (a :: t).getD i d) ∘ Nat.succ) = fun i => t.getD i d := by
            funext i
            simp
          rw [hcomp, ih t (by simpa using hl)]
          simp

/-- C10: for every `totalScore` whose decimal representation has at most 8
digits, `updateScoreDisplay` shows the decimal digits left-padded with zero
characters to exactly 8; for a longer score only the 8 most significant digits
are shown. -/
theorem updateScoreDisplay_spec (totalScore : ℕ) :
    ((Nat.repr totalScore).toList.length ≤ 8 →
      updateScoreDisplay totalScore =
        List.replicate (8 - (Nat.repr totalScore).toList.length) '0' ++
          (Nat.repr totalScore).toList) ∧
    (8 < (Nat.repr totalScore).toList.length →
      updateScoreDisplay totalScore = (Nat.repr totalScore).toList.take 8) := by
  constructor
  · intro h
    simp only [updateScoreDisplay]
    have hlen : (List.replicate (8 - (Nat.repr totalScore).toList.length) '0' ++
        (Nat.repr totalScore).toList).length = 8 := by
      simp only [List.length_append, List.length_replicate]
      omega
    rw [getD_range_map_take '0' 8 _ (le_of_eq hlen.symm)]
    exact List.take_of_length_le (le_of_eq hlen)
  · intro h
    simp only [updateScoreDisplay]
    have hmd : 8 - (Nat.repr totalScore).toList.length = 0 := by omega
    rw [hmd]
    simp only [List.replicate_zero, List.nil_append]
    exact getD_range_map_take '0' 8 _ (by omega)

theorem updateScoreDisplay_spec_witness :
    (Nat.repr 320).toList.length ≤ 8 ∧
      updateScoreDisplay 320 =
        List.replicate (8 - (Nat.repr 320).toList.length) '0' ++ (Nat.repr 320).toList :=
  ⟨by decide, (updateScoreDisplay_spec 320).1 (by decide)⟩

/-- C4: during pop resolution, a cell whose `garbageClearCountMatrix` entry is
2 or more and whose piece is Garbage or Hard fades out fully; with a count of
exactly 1 a Garbage piece fades out while a Hard piece first dims partially
and is then switched to the plain garbage sprite instead of being removed. -/
theorem garbageFade_spec (count : ℕ) (p : String) (frame : ℚ) (v : CellSprite) :
    (2 ≤ count → (p = PuyoType.Garbage ∨ p = PuyoType.Hard) →
      garbageFade count p frame v = { v with alpha := 1 - frame / popDuration }) ∧
    (count = 1 → p = PuyoType.Garbage →
      garbageFade count p frame v = { v with alpha := 1 - frame / popDuration }) ∧
    (count = 1 → p = PuyoType.Hard → frame ≤ popDuration * 0.8 →
      garbageFade count p frame v = { v with alpha := 1 - frame / popDuration * 0.8 }) ∧
    (count = 1 → p = PuyoType.Hard → popDuration * 0.8 < frame →
      garbageFade count p frame v =
        { v with texture := "garbage_n.png",
                 alpha := (frame - popDuration * 0.8) / (popDuration - popDuration * 0.8) }) := by
  refine ⟨?_, ?_, ?_, ?_⟩
  · intro h2 hp
    have hne : ¬count = 1 := by omega
    rcases hp with rfl | rfl <;>
      simp [garbageFade, hne, h2, PuyoType.Garbage, PuyoType.Hard]
  · intro h1 hp
    subst h1
    subst hp
    simp [garbageFade, PuyoType.Garbage, PuyoType.Hard]
  · intro h1 hp hf
    subst h1
    subst hp
    simp [garbageFade, PuyoType.Garbage, PuyoType.Hard, hf]
  · intro h1 hp hf
    subst h1
    subst hp
    simp [garbageFade, PuyoType.Garbage, PuyoType.Hard, not_le.mpr hf]

theorem garbageFade_spec_witness :
    2 ≤ 2 ∧
      garbageFade 2 PuyoType.Garbage 10 ⟨1, "garbage_n.png"⟩ =
        ⟨1 - 10 / popDuration, "garbage_n.png"⟩ :=
  ⟨le_rfl,
    (garbageFade_spec 2 PuyoType.Garbage 10 ⟨1, "garbage_n.png"⟩).1 le_rfl (Or.inl rfl)⟩

/-- C9: after `toggleTargetLayer` with `currentTool.targetLayer` one of
`"main"`, `"shadow"`, `"arrow"` or `"cursor"`, at every grid cell exactly one
of the four display layers is interactive, namely the one named by the target
layer. -/
theorem toggleTargetLayer_spec (targetLayer : String) (grid : List (List LayerInteractivity))
    (h : targetLayer = "main" ∨ targetLayer = "shadow" ∨ targetLayer = "arrow" ∨
      targetLayer = "cursor") :
    ∀ col ∈ toggleTargetLayer targetLayer grid, ∀ v ∈ col,
      interactiveCount v = 1 ∧ layerFlag targetLayer v = true := by
  intro col hcol v hv
  simp only [toggleTargetLayer, List.mem_map] at hcol
  obtain ⟨c0, hc0, rfl⟩ := hcol
  simp only [List.mem_map] at hv
  obtain ⟨v0, hv0, rfl⟩ := hv
  rcases h with rfl | rfl | rfl | rfl <;>
    simp [toggleTargetLayerCell, layerFlag, interactiveCount]

theorem toggleTargetLayer_spec_witness :
    interactiveCount ⟨false, true, false, false⟩ = 1 ∧
      layerFlag "shadow" ⟨false, true, false, false⟩ = true :=
  toggleTargetLayer_spec "shadow" [[⟨true, true, true, true⟩]] (Or.inr (Or.inl rfl))
    [⟨false, true, false, false⟩] (by decide) ⟨false, true, false, false⟩ (by decide)

theorem recoordColumnAux_coordColumnAux (x : ℕ) (col : List String) :
    ∀ y, recoordColumnAux x y (coordColumnAux x y col) = coordColumnAux x y col := by
  induction col with
  | nil => intro y; simp [coordColumnAux, recoordColumnAux]
  | cons p ps ih => intro y; simp [coordColumnAux, recoordColumnAux, ih (y + 1)]

theorem recoordCellsAux_coordCellsAux (m : List (List String)) :
    ∀ x, recoordCellsAux x (coordCellsAux x m) = coordCellsAux x m := by
  induction m with
  | nil => intro x; simp [coordCellsAux, recoordCellsAux]
  | cons col cs ih =>
      intro x
      simp [coordCellsAux, recoordCellsAux, recoordColumnAux_coordColumnAux, ih (x + 1)]

/-- C2: after any call to `resetFieldAndState` every chain-record field is
zero, `hasPops` and `hasDrops` are false, the live grid equals the one
reloaded from the stored `inputMatrix` by `updateFieldMatrix`, and `simState`
is `"idle"`. -/
theorem resetFieldAndState_spec (e : EditorModel) :
    (resetFieldAndState e).gameField.chainLength = 0 ∧
    (resetFieldAndState e).gameField.linkScore = 0 ∧
    (resetFieldAndState e).gameField.totalScore = 0 ∧
    (resetFieldAndState e).gameField.linkBonusMultiplier = 0 ∧
    (resetFieldAndState e).gameField.linkPuyoMultiplier = 0 ∧
    (resetFieldAndState e).gameField.leftoverNuisancePoints = 0 ∧
    (resetFieldAndState e).gameField.totalGarbage = 0 ∧
    (resetFieldAndState e).gameField.linkGarbage = 0 ∧
    (resetFieldAndState e).gameField.hasPops = false ∧
    (resetFieldAndState e).gameField.hasDrops = false ∧
    (resetFieldAndState e).gameField.matrix =
      (updateFieldMatrix e.gameField e.gameField.inputMatrix).matrix ∧
    (resetFieldAndState e).gameField.simState = "idle" := by
  simp [resetFieldAndState, updateFieldMatrix, refreshLinkData, refreshPuyoPositionData,
    setConnectionData, coordCells, recoordCellsAux_coordCellsAux]

/-- Concrete editor model whose simulation is mid-drop (`simState`
`"checkingDrops"`, editor handler `animateFieldDrops`), used to exercise the
cell-edit handlers outside the idle state. -/
def busyEditor : EditorModel :=
  { gameField :=
      { inputMatrix := [["R"]],
        matrix := [[⟨"R", 0, 0⟩]],
        simState := "checkingDrops",
        chainLength := 1, linkScore := 0, totalScore := 0, linkBonusMultiplier := 0,
        linkPuyoMultiplier := 0, leftoverNuisancePoints := 0, totalGarbage := 0,
        linkGarbage := 0, hasPops := false, hasDrops := true, chainHistory := [],
        connections := [[⟨false, false, false, false⟩]] },
    autoAdvance := true, simulationSpeed := 1, frame := 3,
    editorState := "animateFieldDrops", simulatorMode := "edit",
    targetLayer := "main", toolPuyo := "R",
    leftButtonDown := false, rightButtonDown := false }

/-- C3 counterexample: with the simulation mid-drop (`simState` is not
`"idle"`), the left-click edit handler returns successfully with the model
unchanged — no `InvalidStateError`-class condition is raised anywhere in the
handler. -/
theorem editWhileBusy_no_error :
    busyEditor.gameField.simState ≠ "idle" ∧
      puyoPointerdown 0 0 busyEditor = Except.ok busyEditor := by
  constructor
  · decide
  · simp [puyoPointerdown, busyEditor]

/-- C3 amended: the cell-edit pointer handlers guard on the editor's animation
handler being `idleState` (together with the edit mode and target layer), not
on `simState`; when the editor handler is not idle every cell-edit pointer
event leaves the whole model — `inputMatrix` and `matrix` included — unchanged
and returns silently, raising no error condition. -/
theorem editHandlers_silent_when_not_idle (x y : ℕ) (e : EditorModel)
    (h : e.editorState ≠ "idleState") :
    puyoPointerdown x y e = Except.ok e ∧
    puyoRightdown x y e = Except.ok e ∧
    puyoPointerover x y e = Except.ok e := by
  refine ⟨?_, ?_, ?_⟩ <;> simp [puyoPointerdown, puyoRightdown, puyoPointerover, h]

theorem editHandlers_silent_witness :
    busyEditor.editorState ≠ "idleState" ∧
      puyoRightdown 0 0 busyEditor = Except.ok busyEditor :=
  ⟨by decide, (editHandlers_silent_when_not_idle 0 0 busyEditor (by decide)).2.1⟩

/-- C5: every grid-mutating edit handler (left-click place, right-click erase,
drag-paint) ends by re-running `refreshPuyoSprites`, whose first statement is
`gameField.setConnectionData()`; hence whenever a handler returns with a
changed live matrix, the returned connection masks are exactly the ones
computed from the returned piece types. -/
theorem editHandlers_refresh_connections (x y : ℕ) (e : EditorModel) :
    (∀ r, puyoPointerdown x y e = Except.ok r →
      r.gameField.matrix ≠ e.gameField.matrix →
      r.gameField.connections = computeConnections (matrixPieces r.gameField.matrix)) ∧
    (∀ r, puyoRightdown x y e = Except.ok r →
      r.gameField.matrix ≠ e.gameField.matrix →
      r.gameField.connections = computeConnections (matrixPieces r.gameField.matrix)) ∧
    (∀ r, puyoPointerover x y e = Except.ok r →
      r.gameField.matrix ≠ e.gameField.matrix →
      r.gameField.connections = computeConnections (matrixPieces r.gameField.matrix)) := by
  refine ⟨?_, ?_, ?_⟩
  · intro r hr hne
    simp only [puyoPointerdown] at hr
    split at hr
    · split at hr
      · simp only [Except.ok.injEq] at hr
        subst hr
        simp [applyCellEdit, setConnectionData]
      · simp only [Except.ok.injEq] at hr
        subst hr
        simp [setConnectionData]
    · simp only [Except.ok.injEq] at hr
      subst hr
      exact absurd rfl hne
  · intro r hr hne
    simp only [puyoRightdown] at hr
    split at hr
    · simp only [Except.ok.injEq] at hr
      subst hr
      simp [applyCellEdit, setConnectionData]
    · simp only [Except.ok.injEq] at hr
      subst hr
      exact absurd rfl hne
  · intro r hr hne
    simp only [puyoPointerover] at hr
    split at hr
    · simp only [Except.ok.injEq] at hr
      subst hr
      simp [applyCellEdit, setConnectionData]
    · split at hr
      · simp only [Except.ok.injEq] at hr
        subst hr
        simp [applyCellEdit, setConnectionData]
      · simp only [Except.ok.injEq] at hr
        subst hr
        exact absurd rfl hne

/-- Concrete idle editor model in edit mode with the red tool selected, used
to exercise a successful cell edit. -/
def editIdleModel : EditorModel :=
  { gameField :=
      { inputMatrix := [["0"]],
        matrix := [[⟨"0", 0, 0⟩]],
        simState := "idle",
        chainLength := 0, linkScore := 0, totalScore := 0, linkBonusMultiplier := 0,
        linkPuyoMultiplier := 0, leftoverNuisancePoints := 0, totalGarbage := 0,
        linkGarbage := 0, hasPops := false, hasDrops := false, chainHistory := [],
        connections := [[⟨false, false, false, false⟩]] },
    autoAdvance := false, simulationSpeed := 1, frame := 0,
    editorState := "idleState", simulatorMode := "edit",
    targetLayer := "main", toolPuyo := "R",
    leftButtonDown := false, rightButtonDown := false }

theorem editHandlers_refresh_connections_witness :
    (applyCellEdit 0 0 "R" editIdleModel).gameField.connections =
      computeConnections (matrixPieces (applyCellEdit 0 0 "R" editIdleModel).gameField.matrix) :=
  (editHandlers_refresh_connections 0 0 editIdleModel).1 _ rfl (by decide)

theorem stepCellsObserve_fst (t : ℕ) (cs : List CellAnim) (sd : Bool) :
    (stepCellsObserve t cs sd).1 = cs.map (animCellStep t) := by
  induction cs generalizing sd with
  | nil => simp [stepCellsObserve]
  | cons c cs ih => simp [stepCellsObserve, ih]

theorem stepCellsObserve_snd (t : ℕ) (cs : List CellAnim) (sd : Bool) :
    (stepCellsObserve t cs sd).2 =
      (sd || cs.any fun c => decide (0 < c.dropDistance)) := by
  induction cs generalizing sd with
  | nil => simp [stepCellsObserve]
  | cons c cs ih => simp [stepCellsObserve, ih, Bool.or_assoc]

theorem runDropFrame_snd (t : ℕ) :
    ∀ (n : ℕ) (cells : List CellAnim) (sd : Bool),
      ((runDropFrame t n cells sd).2 = true ↔
        sd = true ∨ ∃ i < n, ∃ c ∈ cells, 0 < ((animCellStep t)^[i] c).dropDistance) := by
  intro n
  induction n with
  | zero =>
      intro cells sd
      simp [runDropFrame]
  | succ n ih =>
      intro cells sd
      simp only [runDropFrame]
      rw [stepCellsObserve_fst, stepCellsObserve_snd, ih]
      constructor
      · rintro (hsd | ⟨i, hi, c, hc, hp⟩)
        · rw [Bool.or_eq_true] at hsd
          rcases hsd with h | h
          · exact Or.inl h
          · obtain ⟨c, hc, hp⟩ := List.any_eq_true.mp h
            exact Or.inr ⟨0, Nat.succ_pos n, c, hc, by simpa using of_decide_eq_true hp⟩
        · obtain ⟨c0, hc0, rfl⟩ := List.mem_map.mp hc
          refine Or.inr ⟨i + 1, Nat.succ_lt_succ hi, c0, hc0, ?_⟩
          rw [Function.iterate_succ_apply]
          exact hp
      · rintro (hsd | ⟨i, hi, c, hc, hp⟩)
        · exact Or.inl (by simp [hsd])
        · cases i with
          | zero =>
              refine Or.inl ?_
              have hany : (cells.any fun c => decide (0 < c.dropDistance)) = true :=
                List.any_eq_true.mpr ⟨c, hc, decide_eq_true (by simpa using hp)⟩
              simp [hany]
          | succ i =>
              refine Or.inr ⟨i, Nat.lt_of_succ_lt_succ hi, animCellStep t c,
                List.mem_map_of_mem _ hc, ?_⟩
              rw [← Function.iterate_succ_apply]
              exact hp

/-- C1: if the `checkingDrops` branch of `animateFieldDrops` reaches its
`gameField.advanceState()` call at the end of a frame, then no cell's
`dropDistances` entry was observed to be positive at any of the `n`
iterations of that frame — the engine is never asked to commit the drop while
a drop distance remains unconsumed. -/
theorem animateFieldDrops_advance_only_settled (t n : ℕ) (cells : List CellAnim)
    (h : advanceInvoked t n cells = true) :
    ∀ i < n, ∀ c ∈ cells, ((animCellStep t)^[i] c).dropDistance = 0 := by
  intro i hi c hc
  by_contra hne
  have hpos : 0 < ((animCellStep t)^[i] c).dropDistance := Nat.pos_of_ne_zero hne
  have hrun := (runDropFrame_snd t n cells false).mpr (Or.inr ⟨i, hi, c, hc, hpos⟩)
  simp [advanceInvoked, hrun] at h

/-- Concrete settled cell: distance 0, idle, at rest on its base
coordinate. -/
def settledCell : CellAnim :=
  { dropDistance := 0, animState := "idle", dropSpeed := 0, bounceFrames := 0,
    y := 154, scaleX := 1, scaleY := 1, anchorY := 0.5, isColored := true, baseY := 154 }

theorem animateFieldDrops_advance_witness :
    advanceInvoked 0 2 [settledCell] = true ∧
      ((animCellStep 0)^[1] settledCell).dropDistance = 0 :=
  ⟨by decide,
    animateFieldDrops_advance_only_settled 0 2 [settledCell] (by decide) 1 (by decide)
      settledCell (by simp)⟩

theorem flatten2DStringArray_length (rows : ℕ) :
    ∀ (m : List (List Char)), (∀ col ∈ m, col.length = rows) →
      (flatten2DStringArray m).length = m.length * rows := by
  intro m
  induction m with
  | nil => intro _; simp [flatten2DStringArray]
  | cons col cs ih =>
      intro hr
      have h1 : col.length = rows := hr col (List.mem_cons_self _ _)
      have h2 : ∀ c ∈ cs, c.length = rows := fun c hc2 => hr c (List.mem_cons_of_mem _ hc2)
      simp only [flatten2DStringArray] at ih ⊢
      simp only [List.flatten_cons, List.length_append, List.length_cons, h1, ih h2]
      ring

theorem convert_flatten (rows : ℕ) :
    ∀ (m : List (List Char)), (∀ col ∈ m, col.length = rows) →
      convertStringTo2DArray (flatten2DStringArray m) m.length rows = m := by
  intro m
  induction m with
  | nil => intro _; simp [flatten2DStringArray, convertStringTo2DArray]
  | cons col cs ih =>
      intro hr
      have h1 : col.length = rows := hr col (List.mem_cons_self _ _)
      have h2 : ∀ c ∈ cs, c.length = rows := fun c hc2 => hr c (List.mem_cons_of_mem _ hc2)
      simp only [flatten2DStringArray] at ih ⊢
      simp only [List.flatten_cons, List.length_cons, convertStringTo2DArray]
      congr 1
      · rw [List.take_append_eq_append_take, List.take_of_length_le (le_of_eq h1),
          h1, Nat.sub_self, List.take_zero, List.append_nil]
      · rw [List.drop_append_eq_append_drop, List.drop_of_length_le (le_of_eq h1),
          h1, Nat.sub_self, List.drop_zero, List.nil_append]
        exact ih h2

theorem convert_flatten_of_eq (rows cols : ℕ) (m : List (List Char))
    (hl : m.length = cols) (hr : ∀ col ∈ m, col.length = rows) :
    convertStringTo2DArray (flatten2DStringArray m) cols rows = m := by
  subst hl
  exact convert_flatten rows m hr

/-- C6: field serialization round-trips — each layer string produced for the
shared JSON has exactly `cols * rows` characters, and decompressing that
output and re-splitting it, as `loadFromURL` does, reproduces every layer
cell for cell. -/
theorem fieldSerialization_roundtrip (cols rows : ℕ) (p s a c : List (List Char))
    (hp : WellformedGrid p cols rows) (hs : WellformedGrid s cols rows)
    (ha : WellformedGrid a cols rows) (hc : WellformedGrid c cols rows) :
    ((generateCurrentFieldJSON p s a c).puyo.length = cols * rows ∧
     (generateCurrentFieldJSON p s a c).shadow.length = cols * rows ∧
     (generateCurrentFieldJSON p s a c).arrow.length = cols * rows ∧
     (generateCurrentFieldJSON p s a c).cursor.length = cols * rows) ∧
    loadFromURLLayers (generateCompressedFields p s a c) cols rows = (p, s, a, c) := by
  obtain ⟨hpl, hpc⟩ := hp
  obtain ⟨hsl, hsc⟩ := hs
  obtain ⟨hal, hac⟩ := ha
  obtain ⟨hcl, hcc⟩ := hc
  refine ⟨⟨?_, ?_, ?_, ?_⟩, ?_⟩
  · rw [generateCurrentFieldJSON, flatten2DStringArray_length rows p hpc, hpl]
  · rw [generateCurrentFieldJSON, flatten2DStringArray_length rows s hsc, hsl]
  · rw [generateCurrentFieldJSON, flatten2DStringArray_length rows a hac, hal]
  · rw [generateCurrentFieldJSON, flatten2DStringArray_length rows c hcc, hcl]
  · simp only [loadFromURLLayers, decompressChainURL, decompressFromEncodedURIComponent,
      generateCompressedFields, compressToEncodedURIComponent, generateCurrentFieldJSON,
      List.getD_cons_zero]
    rw [convert_flatten_of_eq rows cols p hpl hpc, convert_flatten_of_eq rows cols s hsl hsc,
      convert_flatten_of_eq rows cols a hal hac, convert_flatten_of_eq rows cols c hcl hcc]

theorem fieldSerialization_roundtrip_witness :
    WellformedGrid [['R', 'G']] 1 2 ∧
      loadFromURLLayers
          (generateCompressedFields [['R', 'G']] [['0', '0']] [['0', '0']] [['1', '0']]) 1 2 =
        ([['R', 'G']], [['0', '0']], [['0', '0']], [['1', '0']]) :=
  ⟨⟨rfl, by decide⟩,
    (fieldSerialization_roundtrip 1 2 [['R', 'G']] [['0', '0']] [['0', '0']] [['1', '0']]
        ⟨rfl, by decide⟩ ⟨rfl, by decide⟩ ⟨rfl, by decide⟩ ⟨rfl, by decide⟩).2⟩

instance decidableIsGroup (m : List (List String)) (G : Finset (ℕ × ℕ)) :
    Decidable (IsGroup m G) := by
  unfold IsGroup
  infer_instance

/-- C7: the pop-eligibility decision of the `checkingPops` phase satisfies the
threshold exactly — a maximal 4-connected same-color group of size
`puyoToPop - 1` never pops and one of size `puyoToPop` always pops. -/
theorem popThreshold (m : List (List String)) (p : ℕ) (G : Finset (ℕ × ℕ))
    (hG : IsGroup m G) (hp : 1 ≤ p) :
    (G.card = p - 1 → groupPops p G = false) ∧ (G.card = p → groupPops p G = true) := by
  constructor
  · intro hcard
    simp only [groupPops, decide_eq_false_iff_not]
    omega
  · intro hcard
    simp only [groupPops, decide_eq_true_eq]
    omega

/-- Concrete grid with a single L-shaped red group of three cells. -/
def witnessGroupGrid : List (List String) := [["R", "R", "0"], ["R", "0", "0"]]

/-- The coordinates of that red group. -/
def witnessGroup : Finset (ℕ × ℕ) := {(0, 0), (0, 1), (1, 0)}

theorem popThreshold_witness :
    IsGroup witnessGroupGrid witnessGroup ∧ groupPops 4 witnessGroup = false :=
  ⟨by decide,
    (popThreshold witnessGroupGrid 4 witnessGroup (by decide) (by decide)).1 (by decide)⟩

end PuyoSim
